import Mathlib

/-
Verification of the port-folio terminal dashboard (src/src/main.rs).

The development shallowly embeds the application's pure core:
the connection-record data model, the selectable list, the
application state with its refresh logic, the list-pane render
format, and the event loop as a step function over a trace of
stimuli. External collaborators (netstat2 socket enumeration,
sysinfo process table, the terminal) are modelled as inputs:
each refresh takes the fetch result as an argument, and the
sysinfo handle is modelled by its refresh counter.
-/

namespace Portfolio

/-- Mirrors netstat2's `TcpSocketInfo` as consumed by `main.rs`:
local/remote endpoints and the display form of the TCP state.
Addresses and the state are kept as their display strings since the
program only ever formats them. -/
structure TcpSocketInfo where
  local_addr : String
  local_port : Nat
  remote_addr : String
  remote_port : Nat
  state : String
deriving DecidableEq

/-- Mirrors netstat2's `UdpSocketInfo`: a UDP socket has only a local
endpoint. -/
structure UdpSocketInfo where
  local_addr : String
  local_port : Nat
deriving DecidableEq

/-- Mirrors netstat2's `ProtocolSocketInfo`: a discriminated union of
TCP and UDP descriptors. -/
inductive ProtocolSocketInfo where
  | Tcp (t : TcpSocketInfo)
  | Udp (u : UdpSocketInfo)
deriving DecidableEq

/-- Mirrors netstat2's `SocketInfo`: the protocol-specific descriptor
plus the owning process ids. -/
structure SocketInfo where
  protocol_socket_info : ProtocolSocketInfo
  associated_pids : List Nat
deriving DecidableEq

/-- The fetch error type (netstat2's `Error`), treated opaquely by the
program; modelled as its message. -/
structure NetstatError where
  msg : String
deriving DecidableEq

/-- Modelled from the spec: the missing module `ui/stateful_list.rs`
declares `StatefulList<T>` with a backing item vector and a ratatui
`ListState`; the `ListState` is flattened to its selected index
(spec 3: an ordered sequence of T plus an optional cursor index). -/
structure StatefulList (α : Type) where
  items : List α
  selected : Option Nat
deriving DecidableEq

/-- Modelled from the spec: `StatefulList::with_items` from the missing
module `ui/stateful_list.rs` constructs with cursor unselected (`None`)
even if the sequence is non-empty (spec 4.1). -/
def StatefulList.with_items (items : List α) : StatefulList α :=
  { items := items, selected := none }

/-- Modelled from the spec: `StatefulList::next` from the missing module
`ui/stateful_list.rs`. If the cursor is `None` and the sequence is
non-empty, select index 0; else advance by 1, wrapping to 0 after the
last index; no-op if the sequence is empty (spec 4.1). -/
def StatefulList.next (l : StatefulList α) : StatefulList α :=
  if l.items.isEmpty then l
  else
    match l.selected with
    | none => { l with selected := some 0 }
    | some i => { l with selected := some ((i + 1) % l.items.length) }

/-- Modelled from the spec: `StatefulList::previous` from the missing
module `ui/stateful_list.rs`. Symmetric to `next`: wraps to the last
index when moving before index 0; selects index 0 if the cursor was
`None` and the sequence is non-empty; no-op on an empty sequence
(spec 4.1). -/
def StatefulList.previous (l : StatefulList α) : StatefulList α :=
  if l.items.isEmpty then l
  else
    match l.selected with
    | none => { l with selected := some 0 }
    | some i =>
        { l with selected := some (if i = 0 then l.items.length - 1 else i - 1) }

/-- The sysinfo `System` handle, modelled by how many times
`refresh_all` has been called on it (the program only ever refreshes it
and performs per-render lookups against it). -/
structure SysHandle where
  refreshCount : Nat
deriving DecidableEq

/-- `System::refresh_all` (main.rs line 64): refreshes the internal
snapshot; modelled as bumping the refresh counter. -/
def SysHandle.refresh_all (s : SysHandle) : SysHandle :=
  { refreshCount := s.refreshCount + 1 }

/-- `System::new_all` (main.rs line 33). -/
def SysHandle.new_all : SysHandle :=
  { refreshCount := 0 }

/-- `App` (main.rs lines 20-23): either a stateful list of socket
records or the last fetch error, plus the sysinfo handle. -/
structure App where
  processes : Except NetstatError (StatefulList SocketInfo)
  system : SysHandle

/-- `App::new` (main.rs lines 26-35), with the result of
`get_sockets_info` supplied as input: on success the list is built with
`with_items`, on failure the error is stored; the sysinfo handle starts
fresh. -/
def App.new (fetch : Except NetstatError (List SocketInfo)) : App :=
  { processes := fetch.map StatefulList.with_items
    system := SysHandle.new_all }

/-- `App::update` (main.rs lines 37-65), with the result of
`get_sockets_info` supplied as input. On success with a prior list the
items are replaced wholesale and the selection reconciled: a selection
whose index is out of bounds of the new items is clamped to the last
index, or cleared when the new items are empty; an in-bounds selection
is left untouched. On success from a prior error a fresh list is built
with `with_items`. On failure the state becomes the error. In every
case `refresh_all` runs on the sysinfo handle afterwards. -/
def App.update (a : App) (fetch : Except NetstatError (List SocketInfo)) : App :=
  let processes :=
    match fetch, a.processes with
    | .ok ns, .ok ps =>
        match ps.selected with
        | some k =>
            if k ≥ ns.length then
              if ns.isEmpty then
                Except.ok { ps with items := ns, selected := none }
              else
                Except.ok { ps with items := ns, selected := some (ns.length - 1) }
            else
              Except.ok { ps with items := ns }
        | none => Except.ok { ps with items := ns }
    | .ok ns, .error _ => Except.ok (StatefulList.with_items ns)
    | .error e, _ => Except.error e
  { processes := processes, system := a.system.refresh_all }

/-- The Down-key handler of `run_app` (main.rs lines 119-123): delegate
to the list's `next` when the state is `Ok`, do nothing when it is
`Err`. -/
def App.select_next (a : App) : App :=
  match a.processes with
  | .ok ps => { a with processes := Except.ok ps.next }
  | .error _ => a

/-- The Up-key handler of `run_app` (main.rs lines 124-128): delegate
to the list's `previous` when the state is `Ok`, do nothing when it is
`Err`. -/
def App.select_previous (a : App) : App :=
  match a.processes with
  | .ok ps => { a with processes := Except.ok ps.previous }
  | .error _ => a

/-- Rust's `Debug` rendering of a `Vec<u32>` of pids, as produced by
the format argument `{:?}` in the `ui` function. -/
def renderPids (pids : List Nat) : String :=
  "[" ++ String.intercalate ", " (pids.map toString) ++ "]"

/-- One line of the list pane (main.rs lines 159-178): the string built
for a record by the `ui` function, with `" - "` separating the pids
from the TCP state as in the source format string. -/
def renderLine (c : SocketInfo) : String :=
  match c.protocol_socket_info with
  | .Tcp t =>
      "TCP " ++ t.local_addr ++ ":" ++ toString t.local_port ++ " -> " ++
        t.remote_addr ++ ":" ++ toString t.remote_port ++ " " ++
        renderPids c.associated_pids ++ " - " ++ t.state
  | .Udp u =>
      "UDP " ++ u.local_addr ++ ":" ++ toString u.local_port ++ " -> *:* " ++
        renderPids c.associated_pids

/-- The list-pane template exactly as the specification words it: a TCP
record as "TCP {local_ip}:{local_port} -> {remote_ip}:{remote_port}
{pids} {state}" (a single space between pids and state) and a UDP
record as "UDP {local_ip}:{local_port} -> *:* {pids}". Stated from the
spec sentence, to be compared against `renderLine`. -/
def claimedRenderLine (c : SocketInfo) : String :=
  match c.protocol_socket_info with
  | .Tcp t =>
      "TCP " ++ t.local_addr ++ ":" ++ toString t.local_port ++ " -> " ++
        t.remote_addr ++ ":" ++ toString t.remote_port ++ " " ++
        renderPids c.associated_pids ++ " " ++ t.state
  | .Udp u =>
      "UDP " ++ u.local_addr ++ ":" ++ toString u.local_port ++ " -> *:* " ++
        renderPids c.associated_pids

/-- The key codes `run_app` distinguishes (main.rs lines 117-130):
a character key, Down, Up, or any other key. -/
inductive KeyCode where
  | char (c : Char)
  | down
  | up
  | otherKey

/-- One iteration's stimulus, as decided by the select between the
ticker and the input poll (main.rs lines 111-133): a refresh tick
(carrying the fetch result the refresh will observe), a single key
event, or no event (the poll timed out or failed). -/
inductive Stimulus where
  | tick (fetch : Except NetstatError (List SocketInfo))
  | key (k : KeyCode)
  | noEvent

/-- Whether a stimulus is the quit key `q` (main.rs line 118). -/
def isQuit : Stimulus → Bool
  | .key (.char c) => c = 'q'
  | _ => false

/-- Whether a stimulus is a refresh tick. -/
def isTick : Stimulus → Bool
  | .tick _ => true
  | _ => false

/-- The effect of one non-quit stimulus on the app (main.rs lines
111-133): a tick runs `update`, Down runs `select_next`, Up runs
`select_previous`, any other key and the no-event case leave the app
unchanged. -/
def applyStimulus (a : App) (s : Stimulus) : App :=
  match s with
  | .tick f => a.update f
  | .key .down => a.select_next
  | .key .up => a.select_previous
  | .key (.char _) => a
  | .key .otherKey => a
  | .noEvent => a

/-- The app after a sequence of non-quit stimuli. -/
def stepFold (a : App) (tr : List Stimulus) : App :=
  tr.foldl applyStimulus a

/-- Number of refresh ticks in a trace, i.e. how many `update` calls
processing it performs. -/
def countTicks (tr : List Stimulus) : Nat :=
  (tr.filter isTick).length

/-- The `run_app` loop (main.rs lines 100-134) over a finite trace of
stimuli: each iteration first renders, then honors exactly the one
stimulus at the head of the trace; the quit key returns at once.
Returns the final app, the number of renders performed, and the number
of `update` calls performed. -/
def runTrace (a : App) : List Stimulus → App × Nat × Nat
  | [] => (a, 0, 0)
  | s :: rest =>
      if isQuit s then (a, 1, 0)
      else
        let r := runTrace (applyStimulus a s) rest
        (r.1, r.2.1 + 1, r.2.2 + (if isTick s then 1 else 0))

/-- The app states reachable by the program: the initial state built by
`App::new` from some fetch result, closed under refreshes and the two
navigation key handlers. -/
inductive Reachable : App → Prop
  | init (fetch : Except NetstatError (List SocketInfo)) :
      Reachable (App.new fetch)
  | update (a : App) (fetch : Except NetstatError (List SocketInfo)) :
      Reachable a → Reachable (a.update fetch)
  | next (a : App) : Reachable a → Reachable a.select_next
  | prev (a : App) : Reachable a → Reachable a.select_previous

/-- Well-formedness of a selectable list: an empty sequence has no
cursor, and any cursor is in bounds. -/
def listWf (l : StatefulList SocketInfo) : Prop :=
  (l.items = [] → l.selected = none) ∧
    ∀ i, l.selected = some i → i < l.items.length

/-- Well-formedness of an app state: whenever it holds a list, that
list is well-formed. -/
def appWf (a : App) : Prop :=
  ∀ l, a.processes = Except.ok l → listWf l

/-- A concrete TCP connection record used in witnesses. -/
def sampleTcp : SocketInfo :=
  { protocol_socket_info :=
      ProtocolSocketInfo.Tcp
        { local_addr := "127.0.0.1", local_port := 8080
          remote_addr := "10.0.0.2", remote_port := 443
          state := "ESTABLISHED" }
    associated_pids := [1234] }

/-- A concrete UDP connection record used in witnesses. -/
def sampleUdp : SocketInfo :=
  { protocol_socket_info :=
      ProtocolSocketInfo.Udp { local_addr := "0.0.0.0", local_port := 53 }
    associated_pids := [] }

/-- A concrete fetch error used in witnesses. -/
def sampleErr : NetstatError :=
  { msg := "permission denied" }

/-- An app started from a successful one-record fetch. -/
def okApp : App :=
  App.new (Except.ok [sampleTcp])

/-- An app started from a failed fetch. -/
def errApp : App :=
  App.new (Except.error sampleErr)

/-- The list held by `okApp`. -/
def sampleList : StatefulList SocketInfo :=
  StatefulList.with_items [sampleTcp]

/-- An app holding a three-record list with the cursor on index 2,
reached by navigating three times from a fresh three-record fetch. -/
def app3 : App :=
  (App.new (Except.ok [sampleTcp, sampleUdp, sampleTcp])).select_next.select_next.select_next

theorem listWf_with_items (xs : List SocketInfo) :
    listWf (StatefulList.with_items xs) :=
  ⟨fun _ => rfl, fun i hi => by simp [StatefulList.with_items] at hi⟩

theorem listWf_next (l : StatefulList SocketInfo) (h : listWf l) :
    listWf l.next := by
  obtain ⟨items, sel⟩ := l
  cases items with
  | nil => simpa [StatefulList.next] using h
  | cons x xs =>
      cases sel with
      | none =>
          refine ⟨fun hit => ?_, fun i hi => ?_⟩
          · simp [StatefulList.next] at hit
          · simp [StatefulList.next] at hi
            simp [StatefulList.next, ← hi]
      | some i =>
          refine ⟨fun hit => ?_, fun j hj => ?_⟩
          · simp [StatefulList.next] at hit
          · simp [StatefulList.next] at hj
            simp [StatefulList.next, ← hj]
            exact Nat.mod_lt _ (Nat.succ_pos _)

theorem listWf_previous (l : StatefulList SocketInfo) (h : listWf l) :
    listWf l.previous := by
  obtain ⟨items, sel⟩ := l
  cases items with
  | nil => simpa [StatefulList.previous] using h
  | cons x xs =>
      cases sel with
      | none =>
          refine ⟨fun hit => ?_, fun i hi => ?_⟩
          · simp [StatefulList.previous] at hit
          · simp [StatefulList.previous] at hi
            simp [StatefulList.previous, ← hi]
      | some i =>
          have hbound : i < (x :: xs).length := h.2 i rfl
          refine ⟨fun hit => ?_, fun j hj => ?_⟩
          · simp [StatefulList.previous] at hit
          · simp [StatefulList.previous] at hj
            simp [StatefulList.previous, ← hj]
            by_cases hz : i = 0
            · simp [hz]
            · simp [hz]
              simp only [List.length_cons] at hbound ⊢
              omega

theorem appWf_new (f : Except NetstatError (List SocketInfo)) :
    appWf (App.new f) := by
  intro l hl
  cases f with
  | error e => simp [App.new, Except.map] at hl
  | ok ns =>
      simp [App.new, Except.map] at hl
      rw [← hl]
      exact listWf_with_items ns

theorem appWf_update (a : App) (f : Except NetstatError (List SocketInfo)) :
    appWf (a.update f) := by
  obtain ⟨procs, sys⟩ := a
  intro l hl
  cases f with
  | error e => simp [App.update] at hl
  | ok ns =>
      cases procs with
      | error e =>
          simp [App.update] at hl
          rw [← hl]
          exact listWf_with_items ns
      | ok ps =>
          obtain ⟨items, sel⟩ := ps
          cases sel with
          | none =>
              simp [App.update] at hl
              rw [← hl]
              exact ⟨fun _ => rfl, fun i hi => by simp at hi⟩
          | some k =>
              by_cases hk : k ≥ ns.length
              · cases ns with
                | nil =>
                    simp [App.update, hk] at hl
                    rw [← hl]
                    exact ⟨fun _ => rfl, fun i hi => by simp at hi⟩
                | cons y ys =>
                    have hk2 : ys.length + 1 ≤ k := by simpa using hk
                    simp [App.update, hk2] at hl
                    rw [← hl]
                    refine ⟨fun hit => ?_, fun i hi => ?_⟩
                    · simp at hit
                    · simp at hi
                      simp [← hi]
              · simp [App.update, hk] at hl
                rw [← hl]
                refine ⟨fun hit => ?_, fun i hi => ?_⟩
                · exfalso
                  subst hit
                  simp at hk
                · have hki : k = i := by simpa using hi
                  have hlt : i < ns.length := by omega
                  exact hlt

theorem appWf_select_next (a : App) (h : appWf a) : appWf a.select_next := by
  obtain ⟨procs, sys⟩ := a
  cases procs with
  | error e => exact h
  | ok ps =>
      intro l hl
      simp [App.select_next] at hl
      rw [← hl]
      exact listWf_next ps (h ps rfl)

theorem appWf_select_previous (a : App) (h : appWf a) :
    appWf a.select_previous := by
  obtain ⟨procs, sys⟩ := a
  cases procs with
  | error e => exact h
  | ok ps =>
      intro l hl
      simp [App.select_previous] at hl
      rw [← hl]
      exact listWf_previous ps (h ps rfl)

theorem wf_reachable (a : App) (h : Reachable a) : appWf a := by
  induction h with
  | init f => exact appWf_new f
  | update b f _ _ => exact appWf_update b f
  | next b _ ih => exact appWf_select_next b ih
  | prev b _ ih => exact appWf_select_previous b ih

/-- C1: for every successful refresh while the state is Ok with a
cursor at index k, the selection is reconciled positionally: kept at k
if k is below the new length, clamped to the last index if out of
bounds of a non-empty new sequence, and reset to `None` if the new
sequence is empty. -/
theorem C1_reconciliation (a : App) (l : StatefulList SocketInfo)
    (ns : List SocketInfo) (k : Nat)
    (hok : a.processes = Except.ok l) (hsel : l.selected = some k) :
    (a.update (Except.ok ns)).processes =
      Except.ok
        { items := ns
          selected :=
            if k < ns.length then some k
            else if ns.isEmpty then none
            else some (ns.length - 1) } := by
  obtain ⟨procs, sys⟩ := a
  simp only at hok
  subst hok
  obtain ⟨items, sel⟩ := l
  simp only at hsel
  subst hsel
  by_cases hk : k ≥ ns.length
  · cases ns with
    | nil => simp [App.update]
    | cons y ys =>
        have hk2 : ys.length + 1 ≤ k := by simpa using hk
        have hk3 : ¬ k < ys.length + 1 := by omega
        simp [App.update, hk2, hk3]
  · have hk2 : k < ns.length := by omega
    simp [App.update, hk2]

/-- The witness instantiates C1 at the spec scenario: a three-record
list with the cursor on index 2 refreshed to a two-record list. -/
theorem C1_reconciliation_witness :
    (app3.update (Except.ok [sampleTcp, sampleUdp])).processes =
      Except.ok
        { items := [sampleTcp, sampleUdp]
          selected :=
            if 2 < ([sampleTcp, sampleUdp] : List SocketInfo).length then some 2
            else if ([sampleTcp, sampleUdp] : List SocketInfo).isEmpty then none
            else some (([sampleTcp, sampleUdp] : List SocketInfo).length - 1) } :=
  C1_reconciliation app3 ⟨[sampleTcp, sampleUdp, sampleTcp], some 2⟩
    [sampleTcp, sampleUdp] 2 rfl rfl

/-- C2: a failed fetch transitions the state unconditionally to the new
error; the processes field holds the error alone, so no prior list
survives alongside it. -/
theorem C2_error_replaces (a : App) (e : NetstatError) :
    (a.update (Except.error e)).processes = Except.error e := by
  obtain ⟨procs, sys⟩ := a
  cases procs <;> rfl

/-- C3: a successful fetch from a prior error state yields a fresh list
built by `with_items`, whose cursor is `None`. -/
theorem C3_recover_unselected (a : App) (e : NetstatError)
    (ns : List SocketInfo) (herr : a.processes = Except.error e) :
    (a.update (Except.ok ns)).processes =
        Except.ok (StatefulList.with_items ns) ∧
      (StatefulList.with_items ns).selected = none := by
  obtain ⟨procs, sys⟩ := a
  simp only at herr
  subst herr
  exact ⟨rfl, rfl⟩

/-- The witness instantiates C3 at a concrete error app recovering with
a one-record fetch. -/
theorem C3_recover_unselected_witness :
    (errApp.update (Except.ok [sampleTcp])).processes =
        Except.ok (StatefulList.with_items [sampleTcp]) ∧
      (StatefulList.with_items ([sampleTcp] : List SocketInfo)).selected = none :=
  C3_recover_unselected errApp sampleErr [sampleTcp] rfl

/-- C4, counterexample: the claimed two-sided invariant (cursor `None`
iff the sequence is empty) is false: the reachable initial state built
from a successful one-record fetch has a non-empty sequence and cursor
`None`, because `with_items` never selects. -/
theorem C4_counterexample :
    ¬ ∀ a : App, Reachable a → ∀ l, a.processes = Except.ok l →
        ((l.selected = none ↔ l.items = []) ∧
          ∀ i, l.selected = some i → i < l.items.length) := by
  intro h
  have h2 :=
    (h okApp (Reachable.init (Except.ok [sampleTcp])) sampleList rfl).1
  have h3 : sampleList.items = [] := h2.mp rfl
  simp [sampleList, StatefulList.with_items] at h3

/-- C4, amended: in every reachable state, the list satisfies the
one-sided invariant: an empty sequence has cursor `None`, and any
cursor is a valid index (the converse direction fails because
`with_items` leaves a non-empty sequence unselected). -/
theorem C4_invariant (a : App) (h : Reachable a)
    (l : StatefulList SocketInfo) (hok : a.processes = Except.ok l) :
    (l.items = [] → l.selected = none) ∧
      ∀ i, l.selected = some i → i < l.items.length :=
  wf_reachable a h l hok

/-- The witness instantiates C4 (amended) at the reachable three-record
app with the cursor on index 2. -/
theorem C4_invariant_witness :
    (2 : Nat) <
      (⟨[sampleTcp, sampleUdp, sampleTcp], some 2⟩ :
        StatefulList SocketInfo).items.length :=
  (C4_invariant app3
      (Reachable.next _ (Reachable.next _ (Reachable.next _
        (Reachable.init (Except.ok [sampleTcp, sampleUdp, sampleTcp])))))
      ⟨[sampleTcp, sampleUdp, sampleTcp], some 2⟩ rfl).2 2 rfl

/-- C5: constructing via `with_items` yields cursor `None` for every
input sequence, non-empty ones included. -/
theorem C5_with_items_unselected (α : Type) (seq : List α) :
    (StatefulList.with_items seq).selected = none := rfl

/-- C6: when the state is an error, the Down and Up handlers leave the
whole app unchanged; when it holds a list, they replace it by the
list's `next` and `previous` respectively, touching nothing else. -/
theorem C6_navigation (a : App) :
    (∀ e, a.processes = Except.error e →
        a.select_next = a ∧ a.select_previous = a) ∧
      ∀ l, a.processes = Except.ok l →
        a.select_next = { a with processes := Except.ok l.next } ∧
          a.select_previous = { a with processes := Except.ok l.previous } := by
  obtain ⟨procs, sys⟩ := a
  constructor
  · intro e he
    simp only at he
    subst he
    exact ⟨rfl, rfl⟩
  · intro l hl
    simp only at hl
    subst hl
    exact ⟨rfl, rfl⟩

/-- The witness instantiates C6 at a concrete error app (no-op) and a
concrete ok app (delegation to the list). -/
theorem C6_navigation_witness :
    errApp.select_next = errApp ∧
      okApp.select_next = { okApp with processes := Except.ok sampleList.next } :=
  ⟨((C6_navigation errApp).1 sampleErr rfl).1,
    ((C6_navigation okApp).2 sampleList rfl).1⟩

/-- C7: every `update` call bumps the sysinfo handle's refresh counter
by exactly one, whatever the fetch result was. -/
theorem C7_refresh_always (a : App)
    (f : Except NetstatError (List SocketInfo)) :
    (a.update f).system.refreshCount = a.system.refreshCount + 1 := rfl

/-- C8: each loop iteration honors exactly the one stimulus it races
out — a refresh tick runs `update`, Down runs `select_next`, Up runs
`select_previous`, any other key and a timed-out poll leave the app
unchanged — and the quit key, whatever the app state, ends the loop at
once: the run over a trace whose first quit key follows a quit-free
prefix ignores everything after the quit, performing one render per
iteration entered (the quit iteration's render precedes the key) and
one `update` per tick in the prefix. -/
theorem C8_loop :
    (∀ (a : App) (f : Except NetstatError (List SocketInfo)),
        applyStimulus a (Stimulus.tick f) = a.update f) ∧
      (∀ a : App, applyStimulus a (Stimulus.key KeyCode.down) = a.select_next) ∧
      (∀ a : App, applyStimulus a (Stimulus.key KeyCode.up) = a.select_previous) ∧
      (∀ (a : App) (c : Char), c ≠ 'q' →
        applyStimulus a (Stimulus.key (KeyCode.char c)) = a) ∧
      (∀ a : App, applyStimulus a (Stimulus.key KeyCode.otherKey) = a ∧
        applyStimulus a Stimulus.noEvent = a) ∧
      ∀ (a : App) (pre post : List Stimulus),
        (∀ s ∈ pre, isQuit s = false) →
        runTrace a (pre ++ Stimulus.key (KeyCode.char 'q') :: post) =
          (stepFold a pre, pre.length + 1, countTicks pre) := by
  refine ⟨fun a f => rfl, fun a => rfl, fun a => rfl, fun a c hc => rfl,
    fun a => ⟨rfl, rfl⟩, fun a pre post hnq => ?_⟩
  induction pre generalizing a with
  | nil => simp [runTrace, isQuit, stepFold, countTicks]
  | cons s rest ih =>
      have hs : isQuit s = false := hnq s (List.mem_cons_self s rest)
      have hrest : ∀ t ∈ rest, isQuit t = false :=
        fun t ht => hnq t (List.mem_cons_of_mem s ht)
      simp only [List.cons_append, runTrace, hs, Bool.false_eq_true, if_false,
        List.append_eq, ih (applyStimulus a s) hrest, Prod.mk.injEq]
      refine ⟨rfl, ?_, ?_⟩
      · simp
      · cases s with
        | tick f => simp [countTicks, isTick, List.filter]
        | key k => simp [countTicks, isTick, List.filter]
        | noEvent => simp [countTicks, isTick, List.filter]

/-- The witness instantiates C8 at a concrete app: a non-quit character
key leaves it unchanged, and a run over a quit-free prefix of one
timed-out poll followed by the quit key and a trailing tick stops with
two renders and no update. -/
theorem C8_loop_witness :
    applyStimulus okApp (Stimulus.key (KeyCode.char 'x')) = okApp ∧
      runTrace okApp
          ([Stimulus.noEvent] ++ Stimulus.key (KeyCode.char 'q') ::
            [Stimulus.tick (Except.ok [])]) =
        (stepFold okApp [Stimulus.noEvent], 2, countTicks [Stimulus.noEvent]) :=
  ⟨C8_loop.2.2.2.1 okApp 'x' (by decide),
    C8_loop.2.2.2.2.2 okApp [Stimulus.noEvent] [Stimulus.tick (Except.ok [])]
      (by intro s hs; simp at hs; subst hs; rfl)⟩

/-- C9, counterexample: the list pane does not render a TCP record in
the claimed form "TCP {local_ip}:{local_port} -> {remote_ip}:{remote_port}
{pids} {state}": the source format string separates the pids from the
state with " - ", so on a concrete established connection the rendered
line differs from the claimed one. -/
theorem C9_counterexample :
    renderLine sampleTcp ≠ claimedRenderLine sampleTcp := by decide

/-- C9, amended: a TCP record renders exactly as "TCP
{local_ip}:{local_port} -> {remote_ip}:{remote_port} {pids} - {state}"
(with " - " between the pids and the state) and a UDP record exactly as
"UDP {local_ip}:{local_port} -> *:* {pids}", the pids printed in Rust
debug list form. -/
theorem C9_render_format :
    (∀ (la ra st : String) (lp rp : Nat) (pids : List Nat),
        renderLine
            { protocol_socket_info :=
                ProtocolSocketInfo.Tcp
                  { local_addr := la, local_port := lp
                    remote_addr := ra, remote_port := rp, state := st }
              associated_pids := pids } =
          "TCP " ++ la ++ ":" ++ toString lp ++ " -> " ++ ra ++ ":" ++
            toString rp ++ " " ++ renderPids pids ++ " - " ++ st) ∧
      ∀ (la : String) (lp : Nat) (pids : List Nat),
        renderLine
            { protocol_socket_info :=
                ProtocolSocketInfo.Udp { local_addr := la, local_port := lp }
              associated_pids := pids } =
          "UDP " ++ la ++ ":" ++ toString lp ++ " -> *:* " ++ renderPids pids :=
  ⟨fun _ _ _ _ _ _ => rfl, fun _ _ _ => rfl⟩

/-- C10: in every reachable state whose list has a cursor, the cursor
indexes inside the item sequence, so the details pane's unchecked
indexing of the selected item cannot go out of bounds. -/
theorem C10_selected_in_bounds (a : App) (h : Reachable a)
    (l : StatefulList SocketInfo) (i : Nat)
    (hok : a.processes = Except.ok l) (hsel : l.selected = some i) :
    i < l.items.length :=
  (wf_reachable a h l hok).2 i hsel

/-- The witness instantiates C10 at the reachable state obtained by one
Down key after a one-record fetch, whose cursor is index 0. -/
theorem C10_selected_in_bounds_witness :
    (0 : Nat) < sampleList.next.items.length :=
  C10_selected_in_bounds okApp.select_next
    (Reachable.next okApp (Reachable.init (Except.ok [sampleTcp])))
    sampleList.next 0 rfl rfl

end Portfolio
